import Mathlib

set_option autoImplicit false

/-!
Shallow embedding of the multi-format output renderer of termplate-go
(package `output`, file `internal/output/formatter.go`), together with the
configuration record it consumes (`internal/config/config.go`).

Modelling conventions:
* Go strings are Lean `String`s; `len` on a Go string is byte length,
  embedded as `goLen` (UTF-8 byte size).
* A Go `map[string]string` is embedded as an association list
  `List (String × String)` recording the iteration order the runtime
  presents; Go's map iteration order is unspecified, so the same map value
  corresponds to every permutation of its association list.
* The output sink (`io.Writer`) is `GoWriter`: the bytes accepted so far,
  a schedule `fails` saying which write calls the sink rejects, and a
  counter of write calls.  Each `fmt.Fprint`/`Fprintf`/`Fprintln` call is
  one write of the formatted bytes.
* Go slice indexing panics when out of range; functions that index are
  embedded as `Option`-valued, `none` standing for the panic.
* `encoding/csv`'s writer buffers through a `bufio.Writer` of capacity
  4096 and only touches the sink when the buffer overflows or on `Flush`;
  this is embedded as `BufWriter` at one-write-per-encoded-row
  granularity (the sink is contacted exactly when the buffer overflows or
  is flushed, as in Go).
* `json.Marshal`, `yaml.Encode` and `fmt`'s default value formatting are
  library calls; their exact bytes are irrelevant to every property
  proved here and are modelled by simple deterministic encoders, while
  their failure behaviour (serialization may fail for values outside the
  three tabular shapes) is modelled by the `marshalable` flag of
  `Value.other`.
-/

namespace Termplate

/-- The three error kinds of the renderer's error taxonomy. -/
inductive Err where
  | unsupportedShape
  | serializationError
  | writeError
  deriving DecidableEq

/-- The dynamic value passed to `Formatter.Print` (`data interface\x7b\x7d`).
`singleRecord` embeds `map[string]string` (pairs in presented iteration
order), `recordList` embeds `[]map[string]string`, `grid` embeds
`[][]string`, and `other` stands for any other Go value, carrying its
`fmt` text representation and whether JSON/YAML marshaling succeeds. -/
inductive Value where
  | singleRecord (pairs : List (String × String))
  | recordList (records : List (List (String × String)))
  | grid (rows : List (List String))
  | other (text : String) (marshalable : Bool)
  deriving DecidableEq

/-- Go `len` on a string: its UTF-8 byte length. -/
def goLen (s : String) : Nat := s.utf8ByteSize

/-- Go map indexing `row[h]` with the zero value `""` for a missing key
(first match wins; a Go map presentation has unique keys). -/
def mapGet (pairs : List (String × String)) (k : String) : String :=
  match pairs with
  | [] => ""
  | p :: rest => if p.1 = k then p.2 else mapGet rest k

/-- Go `mapSliceToTable`: header is the key list of the first record; every
record (the first included) contributes one row holding, per header key,
its value in that record (`""` when missing, extra keys never read). -/
def mapSliceToTable (data : List (List (String × String))) : List (List String) :=
  match data with
  | [] => []
  | first :: _ =>
    let headers := first.map Prod.fst
    headers :: data.map (fun row => headers.map (fun h => mapGet row h))

/-- Go `mapToTable`: header `["Key", "Value"]`, one row per pair in
presented iteration order. -/
def mapToTable (pairs : List (String × String)) : List (List String) :=
  ["Key", "Value"] :: pairs.map (fun p => [p.1, p.2])

/-- Go `toTable`: shape dispatch of the Tabular Normalizer.  Values outside
the three tabular shapes give the `unsupported data type for table
output` error. -/
def toTable (v : Value) : Except Err (List (List String)) :=
  match v with
  | .grid g => .ok g
  | .recordList rs => .ok (mapSliceToTable rs)
  | .singleRecord m => .ok (mapToTable m)
  | .other _ _ => .error .unsupportedShape

/-- One pass of `calculateColumnWidths`' inner loop over a single row:
`widths[i] := max widths[i] (len cell)` per cell; indexing past the end
of `widths` is the Go out-of-range panic, hence `none`. -/
def updateRow : List Nat → List String → Option (List Nat)
  | ws, [] => some ws
  | [], _ :: _ => none
  | w :: ws, c :: cs => (updateRow ws cs).map (fun t => Nat.max w (goLen c) :: t)

/-- The outer loop of `calculateColumnWidths` over all rows. -/
def widthsLoop : List Nat → List (List String) → Option (List Nat)
  | ws, [] => some ws
  | ws, r :: rs =>
    match updateRow ws r with
    | none => none
    | some ws2 => widthsLoop ws2 rs

/-- Go `calculateColumnWidths`: widths start as `len(table[0])` zeroes and
every row (header included) is folded in. -/
def calculateColumnWidths (table : List (List String)) : Option (List Nat) :=
  match table with
  | [] => some []
  | first :: _ => widthsLoop (List.replicate first.length 0) table

/-- Go `strings.Repeat` for the single-character separators used here. -/
def repChar (n : Nat) (c : Char) : String := String.mk (List.replicate n c)

/-- Go `fmt` left-justified padding `%-*s` (no-op when the cell is at
least as wide as the target). -/
def padRight (s : String) (w : Nat) : String :=
  s ++ repChar (w - s.length) ' '

/-- The output sink: accepted bytes, a schedule of which write calls the
sink rejects, and the number of write calls made so far. -/
structure GoWriter where
  out : String
  fails : Nat → Bool
  calls : Nat

/-- One write call on the sink (one `fmt.Fprint...` call): rejected
writes append nothing. -/
def wWrite (w : GoWriter) (s : String) : Option Err × GoWriter :=
  if w.fails w.calls then
    (some Err.writeError, { w with calls := w.calls + 1 })
  else
    (none, { out := w.out ++ s, fails := w.fails, calls := w.calls + 1 })

/-- A `fmt.Fprint...` call whose result is not inspected (the table style
printers return nothing, so every write error there is dropped). -/
def fprintDiscard (w : GoWriter) (s : String) : GoWriter := (wWrite w s).2

/-- The shared cell loop of `printASCIIRow` / `printUnicodeRow` /
`printMarkdownRow`: one write of `pad(cell, widths[i]) ++ sep` per cell;
`widths[i]` past the end of `widths` panics (`none`). -/
def rowCells (sep : String) : GoWriter → List String → List Nat → Option GoWriter
  | w, [], _ => some w
  | _, _ :: _, [] => none
  | w, c :: cs, wd :: wds => rowCells sep (fprintDiscard w (padRight c wd ++ sep)) cs wds

/-- Go `printASCIIRow` (the unused `bool` parameter of the Go function is
dropped): `"| "`, then the cells as `%-*s | `, then a newline. -/
def printASCIIRow (w : GoWriter) (row : List String) (widths : List Nat) :
    Option GoWriter :=
  (rowCells " | " (fprintDiscard w "| ") row widths).map (fun w2 => fprintDiscard w2 "\n")

/-- Go `printUnicodeRow`: `"│ "`, then the cells as `%-*s │ `, newline. -/
def printUnicodeRow (w : GoWriter) (row : List String) (widths : List Nat) :
    Option GoWriter :=
  (rowCells " │ " (fprintDiscard w "│ ") row widths).map (fun w2 => fprintDiscard w2 "\n")

/-- Go `printMarkdownRow`: identical shape to the ASCII row. -/
def printMarkdownRow (w : GoWriter) (row : List String) (widths : List Nat) :
    Option GoWriter :=
  (rowCells " | " (fprintDiscard w "| ") row widths).map (fun w2 => fprintDiscard w2 "\n")

/-- Go `printASCIISeparator`: `"|"`, then per column one write of
`strings.Repeat("-", w+2) ++ "|"`, then a newline. -/
def printASCIISeparator (w : GoWriter) (widths : List Nat) : GoWriter :=
  let w1 := fprintDiscard w "|"
  let w2 := widths.foldl (fun acc wd => fprintDiscard acc (repChar (wd + 2) '-' ++ "|")) w1
  fprintDiscard w2 "\n"

/-- The separator loop inlined in `printMarkdownTable`, identical to the
ASCII separator. -/
def printMarkdownSeparator (w : GoWriter) (widths : List Nat) : GoWriter :=
  let w1 := fprintDiscard w "|"
  let w2 := widths.foldl (fun acc wd => fprintDiscard acc (repChar (wd + 2) '-' ++ "|")) w1
  fprintDiscard w2 "\n"

/-- The segment loop of `printUnicodeBorder`: per column a write of
`strings.Repeat("─", w+2)`, with `mid` written between columns. -/
def unicodeSegs (mid : String) : GoWriter → List Nat → GoWriter
  | w, [] => w
  | w, [wd] => fprintDiscard w (repChar (wd + 2) '─')
  | w, wd :: rest => unicodeSegs mid (fprintDiscard (fprintDiscard w (repChar (wd + 2) '─')) mid) rest

/-- Go `printUnicodeBorder widths left mid right`. -/
def printUnicodeBorder (w : GoWriter) (widths : List Nat) (left mid right : String) :
    GoWriter :=
  fprintDiscard (unicodeSegs mid (fprintDiscard w left) widths) (right ++ "\n")

/-- The data-row loop shared by the three table styles. -/
def printRowsWith (pr : GoWriter → List String → List Nat → Option GoWriter) :
    GoWriter → List (List String) → List Nat → Option GoWriter
  | w, [], _ => some w
  | w, r :: rs, widths => (pr w r widths).bind (fun w2 => printRowsWith pr w2 rs widths)

/-- Go `printASCIITable`: empty table prints nothing; otherwise header row,
separator, data rows. -/
def printASCIITable (w : GoWriter) (table : List (List String)) : Option GoWriter :=
  match table with
  | [] => some w
  | first :: rest =>
    (calculateColumnWidths (first :: rest)).bind (fun widths =>
      (printASCIIRow w first widths).bind (fun w1 =>
        printRowsWith printASCIIRow (printASCIISeparator w1 widths) rest widths))

/-- Go `printUnicodeTable`: top border, header row, cross rule, data rows,
bottom border. -/
def printUnicodeTable (w : GoWriter) (table : List (List String)) : Option GoWriter :=
  match table with
  | [] => some w
  | first :: rest =>
    (calculateColumnWidths (first :: rest)).bind (fun widths =>
      (printUnicodeRow (printUnicodeBorder w widths "┌" "┬" "┐") first widths).bind (fun w1 =>
        (printRowsWith printUnicodeRow (printUnicodeBorder w1 widths "├" "┼" "┤") rest
            widths).bind (fun w2 =>
          some (printUnicodeBorder w2 widths "└" "┴" "┘"))))

/-- Go `printMarkdownTable`: header row, dash separator, data rows. -/
def printMarkdownTable (w : GoWriter) (table : List (List String)) : Option GoWriter :=
  match table with
  | [] => some w
  | first :: rest =>
    (calculateColumnWidths (first :: rest)).bind (fun widths =>
      (printMarkdownRow w first widths).bind (fun w1 =>
        printRowsWith printMarkdownRow (printMarkdownSeparator w1 widths) rest widths))

/-- Whether a CSV field needs quoting (Go `csv.fieldNeedsQuotes` with the
default comma separator): the literal `\.`, or a comma, quote, CR or LF
anywhere, or a leading white-space rune. -/
def csvQuoteNeeded (f : String) : Bool :=
  f = "\\." || f.data.contains ',' || f.data.contains '"' || f.data.contains '\r' ||
    f.data.contains '\n' ||
    (match f.data with
     | [] => false
     | c :: _ => c.isWhitespace)

/-- Doubling of embedded quotes inside a quoted CSV field. -/
def csvEscape : List Char → List Char
  | [] => []
  | c :: rest => if c = '"' then '"' :: '"' :: csvEscape rest else c :: csvEscape rest

/-- One encoded CSV field: quoted with inner quotes doubled when needed. -/
def csvField (f : String) : String :=
  if csvQuoteNeeded f then "\"" ++ String.mk (csvEscape f.data) ++ "\"" else f

/-- One encoded CSV record: comma-joined fields plus the default `\n`
terminator (`UseCRLF` is false). -/
def csvLine (row : List String) : String :=
  String.intercalate "," (row.map csvField) ++ "\n"

/-- Concatenation of a list of strings. -/
def strConcat : List String → String
  | [] => ""
  | a :: rest => a ++ strConcat rest

/-- The full CSV encoding of a table. -/
def csvBytes (table : List (List String)) : String :=
  strConcat (table.map csvLine)

/-- Capacity of the `bufio.Writer` inside `csv.NewWriter`. -/
def bufCap : Nat := 4096

/-- The `bufio.Writer` the CSV writer goes through: buffered bytes, the
underlying sink, and the sticky error flag (`bufio` records the first
sink error and reports it on every later operation). -/
structure BufWriter where
  sink : GoWriter
  buf : String
  errFlag : Bool

/-- Go `bufio.Writer.Flush`: a no-op on a recorded error or an empty buffer;
otherwise one sink write, recording failure in the sticky flag. -/
def bwFlush (b : BufWriter) : BufWriter :=
  if b.errFlag then b
  else if b.buf = "" then b
  else
    match wWrite b.sink b.buf with
    | (some _, s2) => { sink := s2, buf := b.buf, errFlag := true }
    | (none, s2) => { sink := s2, buf := "", errFlag := false }

/-- A buffered write of one encoded record (`csv.Writer.Write`): reports
the sticky error if set, buffers the bytes, and contacts the sink only
when the buffer overflows its capacity. -/
def bwWrite (b : BufWriter) (s : String) : Bool × BufWriter :=
  if b.errFlag then (true, b)
  else if bufCap < goLen (b.buf ++ s) then
    ((bwFlush { b with buf := b.buf ++ s }).errFlag, bwFlush { b with buf := b.buf ++ s })
  else
    (false, { b with buf := b.buf ++ s })

/-- The row loop of `printCSV`: the first `writer.Write` error is wrapped
and returned at once. -/
def csvLoop : BufWriter → List (List String) → Except Err Unit × BufWriter
  | b, [] => (.ok (), b)
  | b, row :: rest =>
    match bwWrite b (csvLine row) with
    | (true, b2) => (.error .writeError, b2)
    | (false, b2) => csvLoop b2 rest

/-- The tabular part of `printCSV`: write every row through the buffered
CSV writer, check `writer.Error()`, and only then run the deferred
`writer.Flush()` — whose own error is discarded on every path. -/
def printCSVTable (table : List (List String)) (w : GoWriter) : Except Err Unit × GoWriter :=
  match csvLoop { sink := w, buf := "", errFlag := false } table with
  | (.error e, b) => (.error e, (bwFlush b).sink)
  | (.ok _, b) =>
    if b.errFlag then (.error .writeError, (bwFlush b).sink)
    else (.ok (), (bwFlush b).sink)

/-- Go `printCSV`: normalize (an error is returned with nothing
written), then stream the table through the buffered CSV writer. -/
def printCSV (v : Value) (w : GoWriter) : Except Err Unit × GoWriter :=
  match toTable v with
  | .error e => (.error e, w)
  | .ok table => printCSVTable table w

/-- JSON encoding of a string (escaping elided; no property proved here
depends on JSON bytes). -/
def jsonStr (s : String) : String := "\"" ++ s ++ "\""

/-- JSON object for one record. -/
def jsonObj (pairs : List (String × String)) : String :=
  "\x7b" ++ String.intercalate "," (pairs.map (fun p => jsonStr p.1 ++ ":" ++ jsonStr p.2)) ++ "\x7d"

/-- JSON array. -/
def jsonArr (xs : List String) : String :=
  "[" ++ String.intercalate "," xs ++ "]"

/-- Library call `json.Marshal` / `json.MarshalIndent`, modelled
abstractly: the three tabular shapes always marshal; an `other` value
marshals iff its `marshalable` flag is set (Go values such as channels,
functions or cycles fail).  The `pretty` flag changes only the bytes,
never success, and the bytes matter to no claim, so it is not consumed
here. -/
def jsonMarshal (_pretty : Bool) (v : Value) : Option String :=
  match v with
  | .singleRecord m => some (jsonObj m)
  | .recordList rs => some (jsonArr (rs.map jsonObj))
  | .grid g => some (jsonArr (g.map (fun r => jsonArr (r.map jsonStr))))
  | .other t m => if m then some t else none

/-- Go `printJSON`: marshal (a failure aborts with nothing written), then a
single `fmt.Fprintln` write whose error is returned. -/
def printJSON (pretty : Bool) (v : Value) (w : GoWriter) : Except Err Unit × GoWriter :=
  match jsonMarshal pretty v with
  | none => (.error .serializationError, w)
  | some s =>
    match wWrite w (s ++ "\n") with
    | (some _, w2) => (.error .writeError, w2)
    | (none, w2) => (.ok (), w2)

/-- Library call `yaml.Encoder.Encode`, modelled abstractly with the same
success behaviour as JSON marshalling (the deferred `encoder.Close` is a
no-op after a completed `Encode`). -/
def yamlMarshal (v : Value) : Option String :=
  match v with
  | .other t m => if m then some t else none
  | _ => jsonMarshal false v

/-- Go `printYAML`: encode; a serialization failure or a sink write failure
is returned through `Encode`. -/
def printYAML (v : Value) (w : GoWriter) : Except Err Unit × GoWriter :=
  match yamlMarshal v with
  | none => (.error .serializationError, w)
  | some s =>
    match wWrite w s with
    | (some _, w2) => (.error .writeError, w2)
    | (none, w2) => (.ok (), w2)

/-- Go `fmt` default formatting of the dynamic value, modelled
abstractly (no claim depends on these bytes). -/
def textRepr : Value → String
  | .singleRecord m =>
    "map[" ++ String.intercalate " " (m.map (fun p => p.1 ++ ":" ++ p.2)) ++ "]"
  | .recordList rs =>
    "[" ++ String.intercalate " " (rs.map (fun m =>
      "map[" ++ String.intercalate " " (m.map (fun p => p.1 ++ ":" ++ p.2)) ++ "]")) ++ "]"
  | .grid g =>
    "[" ++ String.intercalate " " (g.map (fun r => "[" ++ String.intercalate " " r ++ "]")) ++ "]"
  | .other t _ => t

/-- Go `printText`: one `fmt.Fprintln` write whose error is returned. -/
def printText (v : Value) (w : GoWriter) : Except Err Unit × GoWriter :=
  match wWrite w (textRepr v ++ "\n") with
  | (some _, w2) => (.error .writeError, w2)
  | (none, w2) => (.ok (), w2)

/-- Go `config.OutputConfig` (internal/config/config.go). -/
structure OutputConfig where
  format : String
  colorOutput : Bool
  pretty : Bool
  quiet : Bool
  timestamp : Bool
  tableStyle : String
  deriving DecidableEq

/-- The `TableStyle` switch of `printTable`: `unicode`, `markdown`, and
anything else (`ascii` included) the default ASCII style. -/
def printTableStyled (cfg : OutputConfig) (table : List (List String)) (w : GoWriter) :
    Option GoWriter :=
  if cfg.tableStyle = "unicode" then printUnicodeTable w table
  else if cfg.tableStyle = "markdown" then printMarkdownTable w table
  else printASCIITable w table

/-- Go `printTable`: normalize (an error is returned with nothing written),
then dispatch on `TableStyle`.  The style printers return nothing, so
`printTable` always answers success once normalization succeeded. -/
def printTable (cfg : OutputConfig) (v : Value) (w : GoWriter) :
    Option (Except Err Unit × GoWriter) :=
  match toTable v with
  | .error e => some (.error e, w)
  | .ok table => (printTableStyled cfg table w).map (fun w2 => (.ok (), w2))

/-- Go `Formatter.Print`: the Format Selector switch, any unrecognized
format falling back to the text renderer.  `none` is a Go panic inside
the table path. -/
def Print (cfg : OutputConfig) (v : Value) (w : GoWriter) :
    Option (Except Err Unit × GoWriter) :=
  if cfg.format = "json" then some (printJSON cfg.pretty v w)
  else if cfg.format = "yaml" then some (printYAML v w)
  else if cfg.format = "table" then printTable cfg v w
  else if cfg.format = "csv" then some (printCSV v w)
  else some (printText v w)

/-- A sink that accepts every write. -/
def okW (s : String) (n : Nat) : GoWriter :=
  { out := s, fails := fun _ => false, calls := n }

/-- A sink that rejects every write. -/
def badW : GoWriter :=
  { out := "", fails := fun _ => true, calls := 0 }

/-- Options requesting CSV output. -/
def csvCfg : OutputConfig :=
  { format := "csv", colorOutput := false, pretty := false, quiet := false,
    timestamp := false, tableStyle := "" }

/-- Options requesting an ASCII table. -/
def tableAsciiCfg : OutputConfig :=
  { format := "table", colorOutput := false, pretty := false, quiet := false,
    timestamp := false, tableStyle := "ascii" }

/-- Options requesting a Markdown table. -/
def tableMdCfg : OutputConfig :=
  { format := "table", colorOutput := false, pretty := false, quiet := false,
    timestamp := false, tableStyle := "markdown" }

/-! Basic lemmas about the embedded primitives. -/

lemma goLen_empty : goLen "" = 0 := rfl

lemma goLen_append (a b : String) : goLen (a ++ b) = goLen a + goLen b := by
  rcases a with ⟨d1⟩
  rcases b with ⟨d2⟩
  show String.utf8ByteSize ⟨d1 ++ d2⟩ = _
  simp [goLen, Nat.add_comm]

lemma strConcat_nil : strConcat [] = "" := rfl

lemma strConcat_cons (a : String) (l : List String) :
    strConcat (a :: l) = a ++ strConcat l := rfl

lemma fprintDiscard_okW (s t : String) (n : Nat) :
    fprintDiscard (okW s n) t = okW (s ++ t) (n + 1) := rfl

/-- Go map lookup of a key held by no pair gives the zero value. -/
lemma mapGet_eq_empty (r : List (String × String)) (h : String)
    (hk : ∀ p ∈ r, p.1 ≠ h) : mapGet r h = "" := by
  induction r with
  | nil => rfl
  | cons p rest ih =>
    rw [mapGet, if_neg (hk p (by simp))]
    exact ih (fun q hq => hk q (by simp [hq]))

/-- Appending a pair with a fresh key changes no other lookup. -/
lemma mapGet_append_single (r : List (String × String)) (k v h : String)
    (hne : h ≠ k) : mapGet (r ++ [(k, v)]) h = mapGet r h := by
  induction r with
  | nil => simp [mapGet, show k ≠ h from fun hh => hne hh.symm]
  | cons p rest ih =>
    by_cases hp : p.1 = h
    · simp [mapGet, hp]
    · simp [mapGet, hp, ih]

/-! Column-width machinery. -/

/-- Pure form of one `calculateColumnWidths` row pass (defined only under
the in-bounds condition `row.length ≤ widths.length`). -/
def updRow : List Nat → List String → List Nat
  | ws, [] => ws
  | [], _ :: _ => []
  | w :: ws, c :: cs => Nat.max w (goLen c) :: updRow ws cs

lemma updateRow_eq_some (ws : List Nat) (r : List String) (h : r.length ≤ ws.length) :
    updateRow ws r = some (updRow ws r) := by
  induction r generalizing ws with
  | nil => cases ws <;> rfl
  | cons c cs ih =>
    cases ws with
    | nil => simp at h
    | cons w ws =>
      rw [updateRow, updRow, ih ws (by simpa using h)]
      rfl

lemma updRow_length (ws : List Nat) (r : List String) : (updRow ws r).length = ws.length := by
  induction ws generalizing r with
  | nil => cases r <;> rfl
  | cons w ws ih => cases r <;> simp [updRow, ih]

lemma updRow_getD (ws : List Nat) (r : List String) (i : Nat) (h : r.length ≤ ws.length) :
    (updRow ws r).getD i 0 = Nat.max (ws.getD i 0) (goLen (r.getD i "")) := by
  induction ws generalizing r i with
  | nil =>
    cases r with
    | nil => simp [updRow, goLen_empty]
    | cons c cs => simp at h
  | cons w ws ih =>
    cases r with
    | nil => simp [updRow, goLen_empty]
    | cons c cs =>
      cases i with
      | zero => simp [updRow]
      | succ j => simpa [updRow] using ih cs j (by simpa using h)

lemma widthsLoop_spec (t : List (List String)) : ∀ ws : List Nat,
    (∀ r ∈ t, r.length ≤ ws.length) →
    ∃ u, widthsLoop ws t = some u ∧ u.length = ws.length ∧
      ∀ i, u.getD i 0 = t.foldl (fun m r => Nat.max m (goLen (r.getD i ""))) (ws.getD i 0) := by
  induction t with
  | nil => intro ws _; exact ⟨ws, rfl, rfl, fun i => rfl⟩
  | cons r rs ih =>
    intro ws h
    have hr : r.length ≤ ws.length := h r (by simp)
    obtain ⟨u, hu, hlen, hgd⟩ := ih (updRow ws r)
      (fun r2 hr2 => by rw [updRow_length]; exact h r2 (by simp [hr2]))
    refine ⟨u, ?_, by rw [hlen, updRow_length], fun i => ?_⟩
    · rw [widthsLoop, updateRow_eq_some ws r hr]
      exact hu
    · rw [hgd i, updRow_getD ws r i hr, List.foldl_cons]

lemma replicate_getD (n i : Nat) : (List.replicate n (0 : Nat)).getD i 0 = 0 := by
  induction n generalizing i with
  | zero => rfl
  | succ m ih => cases i <;> simp [List.replicate_succ, ih]

lemma updRow_replicate (l : List String) :
    updRow (List.replicate l.length 0) l = l.map goLen := by
  induction l with
  | nil => rfl
  | cons c cs ih => simp [List.replicate_succ, updRow, ih]

/-! Folded maxima. -/

lemma le_foldl_max (l : List Nat) (a : Nat) : a ≤ l.foldl Nat.max a := by
  induction l generalizing a with
  | nil => exact Nat.le_refl a
  | cons c cs ih => exact Nat.le_trans (Nat.le_max_left a c) (ih (Nat.max a c))

lemma mem_le_foldl_max (l : List Nat) (a b : Nat) (hb : b ∈ l) : b ≤ l.foldl Nat.max a := by
  induction l generalizing a with
  | nil => simp at hb
  | cons c cs ih =>
    rcases List.mem_cons.mp hb with rfl | hb2
    · exact Nat.le_trans (Nat.le_max_right a b) (le_foldl_max cs (Nat.max a b))
    · exact ih (Nat.max a c) hb2

lemma foldl_max_eq_or_mem (l : List Nat) (a : Nat) :
    l.foldl Nat.max a = a ∨ l.foldl Nat.max a ∈ l := by
  induction l generalizing a with
  | nil => exact Or.inl rfl
  | cons c cs ih =>
    rcases ih (Nat.max a c) with h | h
    · rw [List.foldl_cons, h]
      rcases Nat.le_total a c with hac | hca
      · exact Or.inr (by simp [Nat.max_eq_right hac])
      · exact Or.inl (Nat.max_eq_left hca)
    · exact Or.inr (by simp [List.foldl_cons]; right; exact h)

/-! Closed forms for the table printers on a sink that accepts every
write. -/

/-- Bytes of the cell loop of a row printer. -/
def cellsStr (sep : String) : List String → List Nat → String
  | [], _ => ""
  | _ :: _, [] => ""
  | c :: cs, wd :: wds => padRight c wd ++ sep ++ cellsStr sep cs wds

/-- Bytes of one Markdown (or ASCII) table row. -/
def mdRowStr (row : List String) (widths : List Nat) : String :=
  "| " ++ cellsStr " | " row widths ++ "\n"

/-- Bytes of the Markdown (or ASCII) separator line: per column a dash
run of length `width + 2` followed by the closing bar. -/
def mdSepStr (widths : List Nat) : String :=
  "|" ++ strConcat (widths.map (fun wd => repChar (wd + 2) '-' ++ "|")) ++ "\n"

lemma rowCells_okW (sep : String) (row : List String) : ∀ (widths : List Nat) (s : String)
    (n : Nat), row.length ≤ widths.length →
    rowCells sep (okW s n) row widths =
      some (okW (s ++ cellsStr sep row widths) (n + row.length)) := by
  induction row with
  | nil => intro widths s n _; simp [rowCells, cellsStr]
  | cons c cs ih =>
    intro widths s n h
    cases widths with
    | nil => simp at h
    | cons wd wds =>
      rw [rowCells, fprintDiscard_okW, ih wds _ _ (by simpa using h), cellsStr]
      simp only [String.append_assoc, Option.some.injEq, List.length_cons]
      congr 1
      omega

lemma printMarkdownRow_okW (row : List String) (widths : List Nat) (s : String) (n : Nat)
    (h : row.length ≤ widths.length) :
    printMarkdownRow (okW s n) row widths =
      some (okW (s ++ mdRowStr row widths) (n + row.length + 2)) := by
  rw [printMarkdownRow, fprintDiscard_okW, rowCells_okW _ _ _ _ _ h]
  simp only [Option.map_some', fprintDiscard_okW, mdRowStr, Option.some.injEq]
  simp only [String.append_assoc]
  congr 1
  omega

lemma sepFold_okW (widths : List Nat) : ∀ (s : String) (n : Nat),
    widths.foldl (fun acc wd => fprintDiscard acc (repChar (wd + 2) '-' ++ "|")) (okW s n) =
      okW (s ++ strConcat (widths.map (fun wd => repChar (wd + 2) '-' ++ "|")))
        (n + widths.length) := by
  induction widths with
  | nil => intro s n; simp [strConcat]
  | cons wd wds ih =>
    intro s n
    rw [List.foldl_cons, fprintDiscard_okW, ih, List.map_cons, strConcat_cons]
    simp only [String.append_assoc, List.length_cons]
    congr 1
    omega

lemma printMarkdownSeparator_okW (widths : List Nat) (s : String) (n : Nat) :
    printMarkdownSeparator (okW s n) widths =
      okW (s ++ mdSepStr widths) (n + widths.length + 2) := by
  rw [printMarkdownSeparator, fprintDiscard_okW, sepFold_okW, fprintDiscard_okW, mdSepStr]
  simp only [String.append_assoc]
  congr 1
  omega

/-- Bytes of the Markdown data-row loop. -/
def mdRowsStr (rows : List (List String)) (widths : List Nat) : String :=
  strConcat (rows.map (fun r => mdRowStr r widths))

lemma printRowsWith_md_okW (rows : List (List String)) : ∀ (widths : List Nat) (s : String)
    (n : Nat), (∀ r ∈ rows, r.length ≤ widths.length) →
    ∃ k, printRowsWith printMarkdownRow (okW s n) rows widths =
      some (okW (s ++ mdRowsStr rows widths) k) := by
  induction rows with
  | nil => intro widths s n _; exact ⟨n, by simp [printRowsWith, mdRowsStr, strConcat]⟩
  | cons r rs ih =>
    intro widths s n h
    rw [printRowsWith, printMarkdownRow_okW r widths s n (h r (by simp)), Option.some_bind]
    obtain ⟨k, hk⟩ := ih widths (s ++ mdRowStr r widths) (n + r.length + 2)
      (fun r2 hr2 => h r2 (by simp [hr2]))
    refine ⟨k, ?_⟩
    rw [hk]
    simp only [mdRowsStr, List.map_cons, strConcat_cons, String.append_assoc]

/-- The Markdown table printer on a fresh accepting sink: header row,
separator, data rows, in closed form. -/
lemma printMarkdownTable_okW (first : List String) (rows : List (List String))
    (widths : List Nat) (s : String) (n : Nat)
    (hw : calculateColumnWidths (first :: rows) = some widths)
    (hlen : widths.length = first.length)
    (hb : ∀ r ∈ rows, r.length ≤ first.length) :
    ∃ k, printMarkdownTable (okW s n) (first :: rows) =
      some (okW (s ++ mdRowStr first widths ++ mdSepStr widths ++ mdRowsStr rows widths) k) := by
  rw [printMarkdownTable, hw, Option.some_bind,
    printMarkdownRow_okW first widths s n (by rw [hlen]), Option.some_bind,
    printMarkdownSeparator_okW]
  obtain ⟨k, hk⟩ := printRowsWith_md_okW rows widths
    (s ++ mdRowStr first widths ++ mdSepStr widths)
    (n + first.length + 2 + widths.length + 2)
    (fun r hr => by rw [hlen]; exact hb r hr)
  exact ⟨k, hk⟩

/-! Panic-freedom machinery for the table printers. -/

lemma rowCells_eq_some (sep : String) (row : List String) : ∀ (widths : List Nat)
    (w : GoWriter), row.length ≤ widths.length →
    ∃ w2, rowCells sep w row widths = some w2 := by
  induction row with
  | nil => intro widths w _; exact ⟨w, rfl⟩
  | cons c cs ih =>
    intro widths w h
    cases widths with
    | nil => simp at h
    | cons wd wds =>
      rw [rowCells]
      exact ih wds _ (by simpa using h)

lemma printASCIIRow_eq_some (w : GoWriter) (row : List String) (widths : List Nat)
    (h : row.length ≤ widths.length) : ∃ w2, printASCIIRow w row widths = some w2 := by
  obtain ⟨w2, hw2⟩ := rowCells_eq_some " | " row widths (fprintDiscard w "| ") h
  exact ⟨fprintDiscard w2 "\n", by rw [printASCIIRow, hw2]; rfl⟩

lemma printUnicodeRow_eq_some (w : GoWriter) (row : List String) (widths : List Nat)
    (h : row.length ≤ widths.length) : ∃ w2, printUnicodeRow w row widths = some w2 := by
  obtain ⟨w2, hw2⟩ := rowCells_eq_some " │ " row widths (fprintDiscard w "│ ") h
  exact ⟨fprintDiscard w2 "\n", by rw [printUnicodeRow, hw2]; rfl⟩

lemma printMarkdownRow_eq_some (w : GoWriter) (row : List String) (widths : List Nat)
    (h : row.length ≤ widths.length) : ∃ w2, printMarkdownRow w row widths = some w2 := by
  obtain ⟨w2, hw2⟩ := rowCells_eq_some " | " row widths (fprintDiscard w "| ") h
  exact ⟨fprintDiscard w2 "\n", by rw [printMarkdownRow, hw2]; rfl⟩

lemma printRowsWith_eq_some (pr : GoWriter → List String → List Nat → Option GoWriter)
    (widths : List Nat)
    (hpr : ∀ (w : GoWriter) (row : List String), row.length ≤ widths.length →
      ∃ w2, pr w row widths = some w2)
    (rows : List (List String)) : ∀ w : GoWriter,
    (∀ r ∈ rows, r.length ≤ widths.length) →
    ∃ w2, printRowsWith pr w rows widths = some w2 := by
  induction rows with
  | nil => intro w _; exact ⟨w, rfl⟩
  | cons r rs ih =>
    intro w h
    obtain ⟨w1, hw1⟩ := hpr w r (h r (by simp))
    obtain ⟨w2, hw2⟩ := ih w1 (fun x hx => h x (by simp [hx]))
    exact ⟨w2, by rw [printRowsWith, hw1, Option.some_bind, hw2]⟩

/-- Success and shape of the width computation for a table whose rows
never exceed the header in length. -/
lemma calculateColumnWidths_cons (first : List String) (rows : List (List String))
    (hb : ∀ r ∈ rows, r.length ≤ first.length) :
    ∃ ws, calculateColumnWidths (first :: rows) = some ws ∧ ws.length = first.length ∧
      ∀ i, ws.getD i 0 =
        (first :: rows).foldl (fun m r => Nat.max m (goLen (r.getD i ""))) 0 := by
  obtain ⟨u, hu, hlen, hgd⟩ := widthsLoop_spec (first :: rows) (List.replicate first.length 0)
    (by
      intro r hr
      rw [List.length_replicate]
      rcases List.mem_cons.mp hr with rfl | h2
      · exact Nat.le_refl _
      · exact hb r h2)
  refine ⟨u, ?_, by rw [hlen, List.length_replicate], fun i => ?_⟩
  · rw [calculateColumnWidths]
    exact hu
  · rw [hgd i, replicate_getD]

lemma printASCIITable_eq_some (first : List String) (rows : List (List String)) (w : GoWriter)
    (hb : ∀ r ∈ rows, r.length ≤ first.length) :
    ∃ w2, printASCIITable w (first :: rows) = some w2 := by
  obtain ⟨ws, hws, hlen, _⟩ := calculateColumnWidths_cons first rows hb
  obtain ⟨w1, hw1⟩ := printASCIIRow_eq_some w first ws (by rw [hlen])
  obtain ⟨w2, hw2⟩ := printRowsWith_eq_some printASCIIRow ws
    (fun w3 row h => printASCIIRow_eq_some w3 row ws h) rows
    (printASCIISeparator w1 ws) (fun r hr => by rw [hlen]; exact hb r hr)
  exact ⟨w2, by rw [printASCIITable, hws, Option.some_bind, hw1, Option.some_bind, hw2]⟩

lemma printUnicodeTable_eq_some (first : List String) (rows : List (List String)) (w : GoWriter)
    (hb : ∀ r ∈ rows, r.length ≤ first.length) :
    ∃ w2, printUnicodeTable w (first :: rows) = some w2 := by
  obtain ⟨ws, hws, hlen, _⟩ := calculateColumnWidths_cons first rows hb
  obtain ⟨w1, hw1⟩ := printUnicodeRow_eq_some (printUnicodeBorder w ws "┌" "┬" "┐") first ws
    (by rw [hlen])
  obtain ⟨w2, hw2⟩ := printRowsWith_eq_some printUnicodeRow ws
    (fun w3 row h => printUnicodeRow_eq_some w3 row ws h) rows
    (printUnicodeBorder w1 ws "├" "┼" "┤") (fun r hr => by rw [hlen]; exact hb r hr)
  exact ⟨printUnicodeBorder w2 ws "└" "┴" "┘",
    by rw [printUnicodeTable, hws, Option.some_bind, hw1, Option.some_bind, hw2,
      Option.some_bind]⟩

lemma printMarkdownTable_eq_some (first : List String) (rows : List (List String)) (w : GoWriter)
    (hb : ∀ r ∈ rows, r.length ≤ first.length) :
    ∃ w2, printMarkdownTable w (first :: rows) = some w2 := by
  obtain ⟨ws, hws, hlen, _⟩ := calculateColumnWidths_cons first rows hb
  obtain ⟨w1, hw1⟩ := printMarkdownRow_eq_some w first ws (by rw [hlen])
  obtain ⟨w2, hw2⟩ := printRowsWith_eq_some printMarkdownRow ws
    (fun w3 row h => printMarkdownRow_eq_some w3 row ws h) rows
    (printMarkdownSeparator w1 ws) (fun r hr => by rw [hlen]; exact hb r hr)
  exact ⟨w2, by rw [printMarkdownTable, hws, Option.some_bind, hw1, Option.some_bind, hw2]⟩

/-! Behaviour of the buffered CSV writer. -/

lemma wWrite_ok (w : GoWriter) (s : String) (hs : ∀ k, w.fails k = false) :
    wWrite w s = (none, { out := w.out ++ s, fails := w.fails, calls := w.calls + 1 }) := by
  rw [wWrite, if_neg (by simp [hs])]

lemma bwFlush_ok (b : BufWriter) (hs : ∀ k, b.sink.fails k = false) (he : b.errFlag = false) :
    (bwFlush b).errFlag = false ∧ (bwFlush b).buf = "" ∧
      (bwFlush b).sink.out = b.sink.out ++ b.buf ∧
      (bwFlush b).sink.fails = b.sink.fails := by
  rw [bwFlush, if_neg (by simp [he])]
  by_cases hbuf : b.buf = ""
  · rw [if_pos hbuf]
    exact ⟨he, hbuf, by rw [hbuf, String.append_empty], rfl⟩
  · rw [if_neg hbuf, wWrite_ok b.sink b.buf hs]
    exact ⟨rfl, rfl, rfl, rfl⟩

lemma bwWrite_ok (b : BufWriter) (s : String) (hs : ∀ k, b.sink.fails k = false)
    (he : b.errFlag = false) :
    ∃ b2, bwWrite b s = (false, b2) ∧ b2.errFlag = false ∧
      b2.sink.fails = b.sink.fails ∧
      b2.sink.out ++ b2.buf = b.sink.out ++ (b.buf ++ s) := by
  rw [bwWrite, if_neg (by simp [he])]
  by_cases hc : bufCap < goLen (b.buf ++ s)
  · rw [if_pos hc]
    obtain ⟨h1, h2, h3, h4⟩ := bwFlush_ok { b with buf := b.buf ++ s } hs he
    refine ⟨_, by rw [h1], h1, h4, ?_⟩
    rw [h2, h3, String.append_empty]
  · rw [if_neg hc]
    exact ⟨_, rfl, he, rfl, rfl⟩

lemma csvLoop_ok (rows : List (List String)) : ∀ b : BufWriter,
    (∀ k, b.sink.fails k = false) → b.errFlag = false →
    ∃ b2, csvLoop b rows = (Except.ok (), b2) ∧ b2.errFlag = false ∧
      b2.sink.fails = b.sink.fails ∧
      b2.sink.out ++ b2.buf = b.sink.out ++ b.buf ++ strConcat (rows.map csvLine) := by
  induction rows with
  | nil =>
    intro b _ he
    exact ⟨b, rfl, he, rfl, by simp [strConcat]⟩
  | cons row rest ih =>
    intro b hs he
    obtain ⟨b1, hw, he1, hf1, hc1⟩ := bwWrite_ok b (csvLine row) hs he
    obtain ⟨b2, hl, he2, hf2, hc2⟩ := ih b1 (fun k => by rw [hf1]; exact hs k) he1
    refine ⟨b2, ?_, he2, by rw [hf2, hf1], ?_⟩
    · rw [csvLoop, hw]
      exact hl
    · rw [hc2, hc1, List.map_cons, strConcat_cons]
      simp only [String.append_assoc]

lemma printCSVTable_ok (table : List (List String)) (w : GoWriter)
    (hs : ∀ k, w.fails k = false) :
    ∃ w2, printCSVTable table w = (Except.ok (), w2) ∧
      w2.out = w.out ++ csvBytes table ∧ w2.fails = w.fails := by
  obtain ⟨b2, hl, he2, hf2, hc2⟩ :=
    csvLoop_ok table { sink := w, buf := "", errFlag := false } (fun k => hs k) rfl
  obtain ⟨f1, f2, f3, f4⟩ := bwFlush_ok b2 (fun k => by rw [hf2]; exact hs k) he2
  have hstep : printCSVTable table w =
      if b2.errFlag then (.error .writeError, (bwFlush b2).sink)
      else (.ok (), (bwFlush b2).sink) := by
    rw [printCSVTable, hl]
  refine ⟨(bwFlush b2).sink, ?_, ?_, by rw [f4, hf2]⟩
  · rw [hstep, if_neg (by simp [he2])]
  · rw [f3]
    have : b2.sink.out ++ b2.buf = w.out ++ csvBytes table := by
      rw [hc2]
      simp [csvBytes]
    exact this

lemma csvLoop_small (rows : List (List String)) : ∀ b : BufWriter, b.errFlag = false →
    goLen b.buf + goLen (strConcat (rows.map csvLine)) ≤ bufCap →
    ∃ b2, csvLoop b rows = (Except.ok (), b2) ∧ b2.errFlag = false ∧ b2.sink = b.sink := by
  induction rows with
  | nil => intro b he _; exact ⟨b, rfl, he, rfl⟩
  | cons row rest ih =>
    intro b he hcap
    have hsplit : goLen (strConcat ((row :: rest).map csvLine)) =
        goLen (csvLine row) + goLen (strConcat (rest.map csvLine)) := by
      rw [List.map_cons, strConcat_cons, goLen_append]
    have hline : ¬ (bufCap < goLen (b.buf ++ csvLine row)) := by
      rw [goLen_append]
      omega
    have hw : bwWrite b (csvLine row) = (false, { b with buf := b.buf ++ csvLine row }) := by
      rw [bwWrite, if_neg (by simp [he]), if_neg hline]
    obtain ⟨b2, hl, he2, hsink⟩ := ih { b with buf := b.buf ++ csvLine row } he
      (by rw [goLen_append]; omega)
    refine ⟨b2, ?_, he2, hsink⟩
    rw [csvLoop, hw]
    exact hl

lemma printCSVTable_small (table : List (List String)) (w : GoWriter)
    (hcap : goLen (csvBytes table) ≤ bufCap) :
    (printCSVTable table w).1 = Except.ok () := by
  obtain ⟨b2, hl, he2, _⟩ := csvLoop_small table { sink := w, buf := "", errFlag := false } rfl
    (by simpa [goLen_empty, csvBytes] using hcap)
  have hstep : printCSVTable table w =
      if b2.errFlag then (.error .writeError, (bwFlush b2).sink)
      else (.ok (), (bwFlush b2).sink) := by
    rw [printCSVTable, hl]
  rw [hstep, if_neg (by simp [he2])]

/-! Dispatch helpers. -/

/-- Options requesting JSON output. -/
def jsonCfg : OutputConfig :=
  { format := "json", colorOutput := false, pretty := false, quiet := false,
    timestamp := false, tableStyle := "" }

lemma fst_of_some_eq {α β : Type} {x : α × β} {a : α} {b : β}
    (h : some x = some (a, b)) : x.1 = a := by
  injection h with h2
  rw [h2]

lemma printJSON_fst_ne_shape (p : Bool) (v : Value) (w : GoWriter) :
    (printJSON p v w).1 ≠ Except.error Err.unsupportedShape := by
  cases hm : jsonMarshal p v with
  | none => simp [printJSON, hm]
  | some s =>
    rcases hw : wWrite w (s ++ "\n") with ⟨e, w2⟩
    cases e <;> simp [printJSON, hm, hw]

lemma printYAML_fst_ne_shape (v : Value) (w : GoWriter) :
    (printYAML v w).1 ≠ Except.error Err.unsupportedShape := by
  cases hm : yamlMarshal v with
  | none => simp [printYAML, hm]
  | some s =>
    rcases hw : wWrite w s with ⟨e, w2⟩
    cases e <;> simp [printYAML, hm, hw]

lemma printText_fst_ne_shape (v : Value) (w : GoWriter) :
    (printText v w).1 ≠ Except.error Err.unsupportedShape := by
  rcases hw : wWrite w (textRepr v ++ "\n") with ⟨e, w2⟩
  cases e <;> simp [printText, hw]

lemma printTable_grid (cfg : OutputConfig) (t : List (List String)) (w : GoWriter) :
    printTable cfg (Value.grid t) w =
      (printTableStyled cfg t w).map (fun w2 => (Except.ok (), w2)) := rfl

lemma printTableStyled_eq_some (cfg : OutputConfig) (first : List String)
    (rows : List (List String)) (w : GoWriter)
    (hb : ∀ r ∈ rows, r.length ≤ first.length) :
    ∃ w2, printTableStyled cfg (first :: rows) w = some w2 := by
  rw [printTableStyled]
  by_cases h1 : cfg.tableStyle = "unicode"
  · rw [if_pos h1]
    exact printUnicodeTable_eq_some first rows w hb
  · rw [if_neg h1]
    by_cases h2 : cfg.tableStyle = "markdown"
    · rw [if_pos h2]
      exact printMarkdownTable_eq_some first rows w hb
    · rw [if_neg h2]
      exact printASCIITable_eq_some first rows w hb

/-! The claims. -/

/-- C1, counterexample.  The claim says two `Print` calls on the same
`RenderableValue` and `RenderOptions` write byte-identical output.  A Go
map's iteration order is unspecified and varies between iterations, so
the same `map[string]string` value may present its pairs in any order;
the two association lists below are permutations of one another, hence
presentations of the same map, yet CSV-rendering them writes different
bytes (the rows swap).  So `Print` on the same `SingleRecord` map twice
is not byte-identical. -/
theorem print_same_map_order_cex :
    (([("a", "1"), ("b", "2")] : List (String × String)).Perm [("b", "2"), ("a", "1")]) ∧
    (Print csvCfg (Value.singleRecord [("a", "1"), ("b", "2")]) (okW "" 0)).map
        (fun p => p.2.out) ≠
      (Print csvCfg (Value.singleRecord [("b", "2"), ("a", "1")]) (okW "" 0)).map
        (fun p => p.2.out) := by
  exact ⟨List.Perm.swap _ _ _, by decide⟩

/-- C1, amended: rendering is a pure function of the iteration order the
runtime presents, so two calls observing the same order are
byte-identical; but Go leaves map iteration order unspecified, so
byte-identical output across calls is not guaranteed for map-shaped
inputs.  For a `SingleRecord`, two presentations of the same map yield
canonical tables with the identical header `["Key", "Value"]` whose
rows are permutations of each other — the rendered row order may differ
between calls. -/
theorem print_map_order_perm (rec1 rec2 : List (String × String)) (h : rec1.Perm rec2) :
    ∃ t1 t2, toTable (Value.singleRecord rec1) = Except.ok t1 ∧
      toTable (Value.singleRecord rec2) = Except.ok t2 ∧
      t1.head? = some ["Key", "Value"] ∧ t2.head? = some ["Key", "Value"] ∧
      t1.Perm t2 :=
  ⟨mapToTable rec1, mapToTable rec2, rfl, rfl, rfl, rfl,
    List.Perm.cons _ (h.map (fun p => [p.1, p.2]))⟩

/-- C1 witness: the amended statement at the two presentations of the
map of the counterexample. -/
theorem print_map_order_perm_witness :
    ∃ t1 t2, toTable (Value.singleRecord [("a", "1"), ("b", "2")]) = Except.ok t1 ∧
      toTable (Value.singleRecord [("b", "2"), ("a", "1")]) = Except.ok t2 ∧
      t1.head? = some ["Key", "Value"] ∧ t2.head? = some ["Key", "Value"] ∧
      t1.Perm t2 :=
  print_map_order_perm _ _ (List.Perm.swap _ _ _)

/-- C2: a value of none of the three tabular shapes makes `Print` with
format `table` or `csv` return `UnsupportedShape` with the sink
untouched, while formats `json` and `yaml` — and every format handled by
the text fallback, `text` included — never produce that error for any
input. -/
theorem print_unsupported_shape_spec (cfg : OutputConfig) (t : String) (m : Bool)
    (v : Value) (w : GoWriter) :
    ((cfg.format = "table" ∨ cfg.format = "csv") →
      Print cfg (Value.other t m) w = some (Except.error Err.unsupportedShape, w)) ∧
    ((cfg.format = "json" ∨ cfg.format = "yaml" ∨
        (cfg.format ≠ "table" ∧ cfg.format ≠ "csv")) →
      ∀ res w2, Print cfg v w = some (res, w2) → res ≠ Except.error Err.unsupportedShape) := by
  constructor
  · rintro (h | h)
    · rw [Print, h]
      rfl
    · rw [Print, h]
      rfl
  · rintro (hj | hy | ⟨ht, hc⟩) <;> intro res w2 hp
    · rw [Print, hj, if_pos rfl] at hp
      rw [← fst_of_some_eq hp]
      exact printJSON_fst_ne_shape cfg.pretty v w
    · rw [Print, hy, if_neg (by decide), if_pos rfl] at hp
      rw [← fst_of_some_eq hp]
      exact printYAML_fst_ne_shape v w
    · rw [Print] at hp
      by_cases hj2 : cfg.format = "json"
      · rw [if_pos hj2] at hp
        rw [← fst_of_some_eq hp]
        exact printJSON_fst_ne_shape cfg.pretty v w
      · rw [if_neg hj2] at hp
        by_cases hy2 : cfg.format = "yaml"
        · rw [if_pos hy2] at hp
          rw [← fst_of_some_eq hp]
          exact printYAML_fst_ne_shape v w
        · rw [if_neg hy2, if_neg ht, if_neg hc] at hp
          rw [← fst_of_some_eq hp]
          exact printText_fst_ne_shape v w

/-- C2 witness: the shape error on a CSV request for a non-tabular
value, and the JSON renderer answering `SerializationError` (not
`UnsupportedShape`) on an unmarshalable value. -/
theorem print_unsupported_shape_witness :
    Print csvCfg (Value.other "zz" true) badW =
        some (Except.error Err.unsupportedShape, badW) ∧
    (Except.error Err.serializationError : Except Err Unit) ≠
      Except.error Err.unsupportedShape :=
  ⟨(print_unsupported_shape_spec csvCfg "zz" true (Value.other "zz" true) badW).1 (Or.inr rfl),
   (print_unsupported_shape_spec jsonCfg "zz" true (Value.other "zz" false) badW).2
     (Or.inl rfl) (Except.error Err.serializationError) badW (by rfl)⟩

/-- C3: normalizing a non-empty `RecordList` never fails; the header is
the key list of the first record, every record (the first included)
contributes exactly the row that reads each header key out of it, a key
held by no pair of a record reads as the empty string, and a pair whose
key is not consulted (e.g. an extra key appended to a record) changes no
other lookup. -/
theorem mapSliceToTable_spec (r0 : List (String × String)) (rs : List (List (String × String))) :
    toTable (Value.recordList (r0 :: rs)) = Except.ok (mapSliceToTable (r0 :: rs)) ∧
    (mapSliceToTable (r0 :: rs)).head? = some (r0.map Prod.fst) ∧
    (mapSliceToTable (r0 :: rs)).length = (r0 :: rs).length + 1 ∧
    (∀ (j : Nat) (r : List (String × String)), (r0 :: rs).get? j = some r →
      (mapSliceToTable (r0 :: rs)).get? (j + 1) =
        some ((r0.map Prod.fst).map (fun h => mapGet r h))) ∧
    (∀ (r : List (String × String)) (h : String), (∀ p ∈ r, p.1 ≠ h) → mapGet r h = "") ∧
    (∀ (r : List (String × String)) (k v h : String), h ≠ k →
      mapGet (r ++ [(k, v)]) h = mapGet r h) := by
  refine ⟨rfl, rfl, ?_, ?_, mapGet_eq_empty, mapGet_append_single⟩
  · simp [mapSliceToTable]
  · intro j r hj
    simp only [mapSliceToTable, List.get?_cons_succ, List.get?_map, hj, Option.map_some']

/-- C3 witness: the record list of the spec's CSV scenario. -/
theorem mapSliceToTable_spec_witness :
    (mapSliceToTable [[("id", "1"), ("name", "Bob")], [("id", "2"), ("name", "Carol")]]).head? =
        some ["id", "name"] ∧
    (mapSliceToTable [[("id", "1"), ("name", "Bob")], [("id", "2"), ("name", "Carol")]]).get? 2 =
        some ["2", "Carol"] := by
  refine ⟨(mapSliceToTable_spec [("id", "1"), ("name", "Bob")]
      [[("id", "2"), ("name", "Carol")]]).2.1, ?_⟩
  have h := (mapSliceToTable_spec [("id", "1"), ("name", "Bob")]
      [[("id", "2"), ("name", "Carol")]]).2.2.2.1 1 [("id", "2"), ("name", "Carol")] rfl
  exact h.trans (by decide)

/-- C4: on a canonical table (every data row as long as the header) the
width calculator succeeds with one entry per column of the first row;
entry `i` is the maximum byte length over column `i` of all rows, the
header included (an upper bound that is attained); and a header-only
table gets exactly the header cells' lengths. -/
theorem calculateColumnWidths_spec (hd : List String) (rows : List (List String))
    (hlen : ∀ r ∈ rows, r.length = hd.length) :
    ∃ ws, calculateColumnWidths (hd :: rows) = some ws ∧
      ws.length = hd.length ∧
      (∀ i, i < hd.length →
        (∀ r ∈ hd :: rows, goLen (r.getD i "") ≤ ws.getD i 0) ∧
        (∃ r ∈ hd :: rows, goLen (r.getD i "") = ws.getD i 0)) ∧
      calculateColumnWidths [hd] = some (hd.map goLen) := by
  obtain ⟨ws, hws, hwlen, hgd⟩ := calculateColumnWidths_cons hd rows
    (fun r hr => Nat.le_of_eq (hlen r hr))
  refine ⟨ws, hws, hwlen, fun i _ => ?_, ?_⟩
  · have hfold : ws.getD i 0 =
        ((hd :: rows).map (fun r => goLen (r.getD i ""))).foldl Nat.max 0 := by
      rw [hgd i, List.foldl_map]
    constructor
    · intro r hr
      rw [hfold]
      exact mem_le_foldl_max _ 0 _ (List.mem_map_of_mem _ hr)
    · rcases foldl_max_eq_or_mem ((hd :: rows).map (fun r => goLen (r.getD i ""))) 0 with
        h0 | hmem
      · have hz : ws.getD i 0 = 0 := by rw [hfold, h0]
        have hle : goLen (hd.getD i "") ≤ ws.getD i 0 := by
          rw [hfold]
          exact mem_le_foldl_max _ 0 _ (List.mem_map_of_mem _ (by simp))
        exact ⟨hd, by simp, by omega⟩
      · obtain ⟨r, hr, hval⟩ := List.mem_map.mp hmem
        exact ⟨r, hr, by rw [hfold]; exact hval⟩
  · rw [calculateColumnWidths, widthsLoop,
      updateRow_eq_some _ _ (by rw [List.length_replicate])]
    show widthsLoop (updRow (List.replicate hd.length 0) hd) [] = some (hd.map goLen)
    rw [widthsLoop, updRow_replicate]

/-- C4 witness: a two-row table with a wider header cell, and its
header-only part. -/
theorem calculateColumnWidths_spec_witness :
    ∃ ws, calculateColumnWidths [["ab"], ["c"]] = some ws ∧
      ws.length = (["ab"] : List String).length ∧
      (∀ i, i < (["ab"] : List String).length →
        (∀ r ∈ [(["ab"] : List String), ["c"]], goLen (r.getD i "") ≤ ws.getD i 0) ∧
        (∃ r ∈ [(["ab"] : List String), ["c"]], goLen (r.getD i "") = ws.getD i 0)) ∧
      calculateColumnWidths [["ab"]] = some (["ab"].map goLen) :=
  calculateColumnWidths_spec ["ab"] [["c"]] (by decide)

/-- C5, counterexample.  The claim says every table the normalizer
produces satisfies `len(row) = len(header)`, Grid inputs included; but a
Grid is passed through unchanged, so a ragged grid yields a table whose
second row is longer than its header. -/
theorem grid_ragged_invariant_cex :
    toTable (Value.grid [["a"], ["b", "c"]]) = Except.ok [["a"], ["b", "c"]] ∧
    ¬ ∀ r ∈ [(["a"] : List String), ["b", "c"]], r.length = (["a"] : List String).length := by
  exact ⟨rfl, by decide⟩

/-- C5, amended: the row-length invariant is established at construction
for `SingleRecord` (header `["Key","Value"]`, every row of length 2) and
`RecordList` (every data row as long as the header) inputs, but a `Grid`
is passed through unchecked, so for Grid inputs the invariant holds only
when the supplied grid is itself rectangular. -/
theorem table_row_length_invariant_amended :
    (∀ (m : List (String × String)) (r : List String), r ∈ mapToTable m → r.length = 2) ∧
    (∀ (d : List (List (String × String))) (hd : List String) (rest : List (List String)),
      mapSliceToTable d = hd :: rest → ∀ r ∈ rest, r.length = hd.length) ∧
    (∀ g : List (List String), toTable (Value.grid g) = Except.ok g) := by
  refine ⟨?_, ?_, fun g => rfl⟩
  · intro m r hr
    rw [mapToTable] at hr
    rcases List.mem_cons.mp hr with rfl | h2
    · rfl
    · obtain ⟨p, _, rfl⟩ := List.mem_map.mp h2
      rfl
  · intro d hd rest hmap r hr
    cases d with
    | nil => simp [mapSliceToTable] at hmap
    | cons r0 rs =>
      simp only [mapSliceToTable] at hmap
      injection hmap with h1 h2
      subst h1
      subst h2
      obtain ⟨rec, _, rfl⟩ := List.mem_map.mp hr
      simp

/-- C5 witness: the invariant at a singleton `SingleRecord`. -/
theorem table_row_length_invariant_witness :
    (["k", "v"] : List String).length = 2 :=
  table_row_length_invariant_amended.1 [("k", "v")] ["k", "v"] (by simp [mapToTable])

/-- C6, counterexample.  The claim says a flush error is returned to
the caller.  `printCSV` runs `defer writer.Flush()` but checks
`writer.Error()` before the deferred flush executes, so an error raised
by that final flush is discarded: on a sink that rejects every write, a
one-row CSV render attempts the flush (one write call, nothing
accepted) and still returns success. -/
theorem csv_deferred_flush_error_cex :
    (Print csvCfg (Value.grid [["a"]]) badW).map (fun p => (p.1, p.2.out, p.2.calls)) =
        some (Except.ok (), "", 1) ∧
    badW.fails 0 = true :=
  ⟨rfl, rfl⟩

/-- C6, amended: the deferred flush does run before `printCSV` returns —
on a sink that accepts writes, the full CSV encoding is on the sink at
return — and an error during a row write is surfaced through the csv
writer's sticky error; but an error raised by the final deferred flush
itself is swallowed: whenever the whole encoding fits the 4096-byte
buffer (so the sink is first contacted by that flush), `printCSV`
returns success no matter what the sink does. -/
theorem csv_flush_amended (table : List (List String)) :
    (∀ w : GoWriter, (∀ k, w.fails k = false) →
      ∃ w2, printCSV (Value.grid table) w = (Except.ok (), w2) ∧
        w2.out = w.out ++ csvBytes table) ∧
    (∀ w : GoWriter, goLen (csvBytes table) ≤ bufCap →
      (printCSV (Value.grid table) w).1 = Except.ok ()) ∧
    (∀ (b : BufWriter) (row : List String) (rest : List (List String)), b.errFlag = true →
      (csvLoop b (row :: rest)).1 = Except.error Err.writeError) := by
  refine ⟨?_, ?_, ?_⟩
  · intro w hs
    obtain ⟨w2, h1, h2, _⟩ := printCSVTable_ok table w hs
    exact ⟨w2, h1, h2⟩
  · intro w hcap
    exact printCSVTable_small table w hcap
  · intro b row rest he
    simp [csvLoop, bwWrite, he]

/-- C6 witness: the amended statement at a one-row grid, on an
accepting sink, on the rejecting sink, and on a poisoned csv writer. -/
theorem csv_flush_amended_witness :
    (∃ w2, printCSV (Value.grid [["a"]]) (okW "" 0) = (Except.ok (), w2) ∧
      w2.out = "" ++ csvBytes [["a"]]) ∧
    (printCSV (Value.grid [["a"]]) badW).1 = Except.ok () ∧
    (csvLoop { sink := badW, buf := "", errFlag := true } [["a"]]).1 =
      Except.error Err.writeError :=
  ⟨(csv_flush_amended [["a"]]).1 (okW "" 0) (fun _ => rfl),
   (csv_flush_amended [["a"]]).2.1 badW (by decide),
   (csv_flush_amended [["a"]]).2.2 _ ["a"] [] rfl⟩

/-- C7, counterexample.  The claim says a rejected write makes `Print`
return `WriteError` for every format.  The table style printers return
nothing, so every `fmt.Fprint` error inside them is discarded: an ASCII
table render against a sink that rejects all six attempted writes still
returns success. -/
theorem table_style_write_error_cex :
    (Print tableAsciiCfg (Value.grid [["a"]]) badW).map (fun p => (p.1, p.2.out, p.2.calls)) =
        some (Except.ok (), "", 6) ∧
    badW.fails 0 = true :=
  ⟨rfl, rfl⟩

/-- C7, amended: a rejected write is returned as `WriteError` by the
json, yaml and text renderers (whenever their single write is the one
rejected), and the CSV row loop returns `WriteError` as soon as the csv
writer has recorded a sink error; but the table format's style printers
discard write errors, so `Print` with `format=table` returns success on
any well-formed table regardless of the sink. -/
theorem write_error_propagation_amended :
    (∀ (p : Bool) (v : Value) (s : String) (w : GoWriter), jsonMarshal p v = some s →
      w.fails w.calls = true → (printJSON p v w).1 = Except.error Err.writeError) ∧
    (∀ (v : Value) (s : String) (w : GoWriter), yamlMarshal v = some s →
      w.fails w.calls = true → (printYAML v w).1 = Except.error Err.writeError) ∧
    (∀ (v : Value) (w : GoWriter), w.fails w.calls = true →
      (printText v w).1 = Except.error Err.writeError) ∧
    (∀ (b : BufWriter) (row : List String) (rest : List (List String)), b.errFlag = true →
      (csvLoop b (row :: rest)).1 = Except.error Err.writeError) ∧
    (∀ (cfg : OutputConfig) (first : List String) (rows : List (List String)) (w : GoWriter),
      cfg.format = "table" → (∀ r ∈ rows, r.length ≤ first.length) →
      ∃ w2, Print cfg (Value.grid (first :: rows)) w = some (Except.ok (), w2)) := by
  refine ⟨?_, ?_, ?_, ?_, ?_⟩
  · intro p v s w hm hf
    simp [printJSON, hm, wWrite, hf]
  · intro v s w hm hf
    simp [printYAML, hm, wWrite, hf]
  · intro v w hf
    simp [printText, wWrite, hf]
  · intro b row rest he
    simp [csvLoop, bwWrite, he]
  · intro cfg first rows w hfmt hb
    obtain ⟨w2, hw2⟩ := printTableStyled_eq_some cfg first rows w hb
    refine ⟨w2, ?_⟩
    rw [Print, hfmt, if_neg (by decide), if_neg (by decide), if_pos rfl, printTable_grid, hw2]
    rfl

/-- C7 witness: the amended statement at the text renderer on the
rejecting sink and at an ASCII table on the same sink. -/
theorem write_error_propagation_witness :
    (printText (Value.other "x" true) badW).1 = Except.error Err.writeError ∧
    ∃ w2, Print tableAsciiCfg (Value.grid [["a"]]) badW = some (Except.ok (), w2) :=
  ⟨write_error_propagation_amended.2.2.1 (Value.other "x" true) badW rfl,
   write_error_propagation_amended.2.2.2.2 tableAsciiCfg ["a"] [] badW rfl (by simp)⟩

/-- C8, counterexample.  The claim says each dash run of the Markdown
separator has length `ColumnWidths[i]`; the code writes
`strings.Repeat("-", w+2)`.  For the grid of the spec's scenario the
widths are `[2, 2]`, yet the rendered separator line carries four-dash
runs, not the two-dash runs the claim predicts. -/
theorem markdown_separator_width_cex :
    calculateColumnWidths [["H1", "H2"], ["x", "y"]] = some [2, 2] ∧
    (Print tableMdCfg (Value.grid [["H1", "H2"], ["x", "y"]]) (okW "" 0)).map
        (fun p => p.2.out) =
      some ("| H1 | H2 | \n" ++ ("|----|----|" ++ "\n") ++ "| x  | y  | \n") ∧
    ("|----|----|" : String) ≠ "|" ++ repChar 2 '-' ++ "|" ++ repChar 2 '-' ++ "|" := by
  exact ⟨rfl, rfl, by decide⟩

/-- C8, amended: in the Markdown rendering of any well-formed table the
separator row after the header is `mdSepStr widths`, whose run for
column `i` is `repChar (widths[i] + 2) '-'` — a dash run of length
`ColumnWidths[i] + 2`, not `ColumnWidths[i]`. -/
theorem markdown_separator_amended (first : List String) (rows : List (List String))
    (s : String) (n : Nat) (hb : ∀ r ∈ rows, r.length ≤ first.length) :
    ∃ ws k, calculateColumnWidths (first :: rows) = some ws ∧
      printMarkdownTable (okW s n) (first :: rows) =
        some (okW (s ++ mdRowStr first ws ++ mdSepStr ws ++ mdRowsStr rows ws) k) ∧
      mdSepStr ws = "|" ++ strConcat (ws.map (fun wd => repChar (wd + 2) '-' ++ "|")) ++ "\n" ∧
      (∀ wd, (repChar (wd + 2) '-').length = wd + 2) := by
  obtain ⟨ws, hws, hlen, _⟩ := calculateColumnWidths_cons first rows hb
  obtain ⟨k, hk⟩ := printMarkdownTable_okW first rows ws s n hws hlen hb
  refine ⟨ws, k, hws, hk, rfl, fun wd => ?_⟩
  rw [repChar]
  simp [String.length]

/-- C8 witness: the amended statement at the scenario grid. -/
theorem markdown_separator_amended_witness :
    ∃ ws k, calculateColumnWidths [["H1", "H2"], ["x", "y"]] = some ws ∧
      printMarkdownTable (okW "" 0) [["H1", "H2"], ["x", "y"]] =
        some (okW ("" ++ mdRowStr ["H1", "H2"] ws ++ mdSepStr ws ++
          mdRowsStr [["x", "y"]] ws) k) ∧
      mdSepStr ws = "|" ++ strConcat (ws.map (fun wd => repChar (wd + 2) '-' ++ "|")) ++ "\n" ∧
      (∀ wd, (repChar (wd + 2) '-').length = wd + 2) :=
  markdown_separator_amended ["H1", "H2"] [["x", "y"]] "" 0 (by decide)

/-- C9, counterexample.  The claim says the Markdown rendering of the
scenario grid is exactly the three lines with no other characters; the
row printer emits `"%-*s | "` per cell, leaving one trailing space after
the final bar of each non-separator line, so the actual bytes differ
from the claimed bytes. -/
theorem markdown_grid_scenario_cex :
    (Print tableMdCfg (Value.grid [["H1", "H2"], ["x", "y"]]) (okW "" 0)).map
        (fun p => (p.1, p.2.out)) =
      some (Except.ok (), "| H1 | H2 | \n|----|----|\n| x  | y  | \n") ∧
    ("| H1 | H2 | \n|----|----|\n| x  | y  | \n" : String) ≠
      "| H1 | H2 |\n|----|----|\n| x  | y  |\n" := by
  exact ⟨rfl, by decide⟩

/-- C9, amended: rendering the scenario grid as a Markdown table writes
exactly the lines `"| H1 | H2 | "`, `"|----|----|"` and `"| x  | y  | "`
(newline-terminated): the header and data lines carry one trailing
space after their final bar. -/
theorem markdown_grid_scenario_amended :
    (Print tableMdCfg (Value.grid [["H1", "H2"], ["x", "y"]]) (okW "" 0)).map
        (fun p => (p.1, p.2.out)) =
      some (Except.ok (), "| H1 | H2 | " ++ "\n" ++ ("|----|----|" ++ "\n") ++
        ("| x  | y  | " ++ "\n")) := by
  rfl

/-- C10: if no row of a table is longer than its first row, the width
calculator and all three per-row printers only ever index the widths
sequence in bounds (no embedded panic: every result is `some`), and the
widths sequence has exactly one entry per column of the first row.  A
`Grid` reaches these functions unchecked, as the last conjunct records,
so this bound is precisely the precondition for panic-free table
rendering. -/
theorem table_render_in_bounds (first : List String) (rows : List (List String))
    (w : GoWriter) (hb : ∀ r ∈ rows, r.length ≤ first.length) :
    (∃ ws, calculateColumnWidths (first :: rows) = some ws ∧ ws.length = first.length) ∧
    (printASCIITable w (first :: rows)).isSome ∧
    (printUnicodeTable w (first :: rows)).isSome ∧
    (printMarkdownTable w (first :: rows)).isSome ∧
    toTable (Value.grid (first :: rows)) = Except.ok (first :: rows) := by
  obtain ⟨ws, hws, hlen, _⟩ := calculateColumnWidths_cons first rows hb
  obtain ⟨a, ha⟩ := printASCIITable_eq_some first rows w hb
  obtain ⟨u, hu⟩ := printUnicodeTable_eq_some first rows w hb
  obtain ⟨m2, hm⟩ := printMarkdownTable_eq_some first rows w hb
  exact ⟨⟨ws, hws, hlen⟩, by rw [ha]; rfl, by rw [hu]; rfl, by rw [hm]; rfl, rfl⟩

/-- C10 witness: the bound holds for the scenario grid, on the
rejecting sink. -/
theorem table_render_in_bounds_witness :
    (∃ ws, calculateColumnWidths [["H1", "H2"], ["x", "y"]] = some ws ∧
      ws.length = (["H1", "H2"] : List String).length) ∧
    (printASCIITable badW [["H1", "H2"], ["x", "y"]]).isSome ∧
    (printUnicodeTable badW [["H1", "H2"], ["x", "y"]]).isSome ∧
    (printMarkdownTable badW [["H1", "H2"], ["x", "y"]]).isSome ∧
    toTable (Value.grid [["H1", "H2"], ["x", "y"]]) =
      Except.ok [["H1", "H2"], ["x", "y"]] :=
  table_render_in_bounds ["H1", "H2"] [["x", "y"]] badW (by decide)

end Termplate
